import Mathlib

/-!
Verification of the scene-to-audio alignment and duration-calculation engine
(helpers/elevenlabs_helpers.py) against its specification.

Modelling conventions:
- a Python scene dict is a record with the two keys the engine touches
  (elevenlabs, duration) plus a field rest standing for every other key;
- strings are lists of characters; floating-point times are exact rationals;
- a fallible indexed lookup returns an Option; the try/except IndexError
  block is the match on the two Option lookups;
- the printed whole-batch error message of the missing-alignment branch is
  modelled as a Bool returned alongside the scene list (it is the only
  whole-batch failure signal the function emits).
-/

/-- A scene record. The engine reads scene.get with key elevenlabs and writes the
duration key; the field rest stands for all other keys of the Python dict. -/
structure Scene (ρ : Type) where
  elevenlabs : List Char
  duration : String
  rest : ρ
deriving DecidableEq, Repr

/-- The alignment record (helpers/elevenlabs_helpers.py lines 65-67): the two
time arrays may be absent, which data.get models as an Option. The characters
array is read by the source only for commented-out debugging and is omitted. -/
structure AlignmentRecord where
  character_start_times_seconds : Option (List ℚ)
  character_end_times_seconds : Option (List ℚ)

/-- Line 27: the text used to separate scenes in the prompt. -/
def SCENE_SEPARATOR : List Char := (" [pause] ").toList

/-- Line 33: whether the API is assumed to return alignment data for the
separator text itself. -/
def EXPECT_CONTROL_ALIGNMENT_DATA : Bool := false

/-- Two-decimal fixed-point rendering with unit suffix, modelling the
format-string of line 109 over exact rationals (round-half-up; the proved
instances are never at a tie). -/
def formatDuration (q : ℚ) : String :=
  let cents : ℤ := ⌊q * 100 + 1 / 2⌋
  let n : ℕ := cents.natAbs
  (if cents < 0 then ("-") else ("")) ++ Nat.repr (n / 100) ++ (".") ++
    (if n % 100 < 10 then ("0") else ("")) ++ Nat.repr (n % 100) ++ ("s")

/-- Lines 100-105 and 116-117: the two timestamp lookups for a non-empty scene
(start index = cursor, end index clamped to the last valid index) and the
pre-padding measurement t_end - t_start; none models the caught IndexError. -/
def measuredDuration (charStarts charEnds : List ℚ) (total cursor textLen : ℕ) : Option ℚ :=
  match charStarts.get? cursor, charEnds.get? (min (cursor + textLen - 1) (total - 1)) with
  | some tStart, some tEnd => some (tEnd - tStart)
  | _, _ => none

/-- Lines 100-117: the duration value written to a non-empty in-bounds scene:
the formatted measurement plus the 0.5 buffer on success, the error sentinel
when a lookup raised. -/
def writeScene (scene : Scene ρ) : Option ℚ → Scene ρ
  | some d => { scene with duration := formatDuration (d + 1 / 2) }
  | none => { scene with duration := ("error") }

/-- Lines 119-133: cursor advancement after a processed non-empty scene:
always past the scene text, plus the separator length when this is not the
last scene and the control-alignment flag is set. -/
def advanceCursor (flag : Bool) (cursor textLen : ℕ) (isLast : Bool) : ℕ :=
  cursor + textLen + (if isLast = false ∧ flag = true then SCENE_SEPARATOR.length else 0)

/-- The scene loop of calculate_durations_by_char_count (lines 76-133),
parametrised by the separator policy flag the source reads from the constant
EXPECT_CONTROL_ALIGNMENT_DATA. An empty scene receives the literal zero
duration and the loop continues without advancing the cursor; a start index
at or beyond the alignment length receives the error sentinel and the loop
breaks, returning the remaining scenes untouched. -/
def processScenes (flag : Bool) (charStarts charEnds : List ℚ) (total : ℕ) :
    List (Scene ρ) → ℕ → List (Scene ρ)
  | [], _ => []
  | scene :: rest, cursor =>
    if scene.elevenlabs.length = 0 then
      { scene with duration := ("0s") } :: processScenes flag charStarts charEnds total rest cursor
    else if total ≤ cursor then
      { scene with duration := ("error") } :: rest
    else
      writeScene scene (measuredDuration charStarts charEnds total cursor scene.elevenlabs.length)
        :: processScenes flag charStarts charEnds total rest
            (advanceCursor flag cursor scene.elevenlabs.length rest.isEmpty)

/-- Lines 60-135: extract the two time arrays (both dict lookups are falsy for
an absent key and for an empty array), bail out on the whole batch when either
is falsy, otherwise run the scan with the cursor initialised to 0. The Bool
records whether the missing-alignment error branch (the print of line 70, the
function's only whole-batch failure signal) was taken. -/
def calculate_durations_by_char_count (flag : Bool) (scenes : List (Scene ρ))
    (alignment : AlignmentRecord) : List (Scene ρ) × Bool :=
  let charStarts := alignment.character_start_times_seconds.getD []
  let charEnds := alignment.character_end_times_seconds.getD []
  if charStarts = [] ∨ charEnds = [] then (scenes, true)
  else (processScenes flag charStarts charEnds charStarts.length scenes 0, false)

/-- Python str.join with a separator (no separator before the first or after
the last element). -/
def sepJoin (sep : List Char) : List (List Char) → List Char
  | [] => []
  | [t] => t
  | t :: t₂ :: ts => t ++ sep ++ sepJoin sep (t₂ :: ts)

/-- Lines 207-208 of elevenlabs_generation: the concatenated voiceover string
sent to synthesis, the scene texts joined by SCENE_SEPARATOR. -/
def elevenlabs_voiceover (scenes : List (Scene ρ)) : List Char :=
  sepJoin SCENE_SEPARATOR (scenes.map Scene.elevenlabs)

/-- Modelled from the spec: the round-trip law of section 8 splits the
concatenation back on the separator. This is Python str.split semantics:
scan left to right, break at each leftmost non-overlapping separator
occurrence. Structured with explicit fuel so that it evaluates by kernel
reduction; the wrapper below instantiates the fuel adequately. -/
def splitOnSepAux (sep : List Char) : ℕ → List Char → List (List Char)
  | _, [] => [[]]
  | 0, l => [l]
  | fuel + 1, c :: cs =>
    if sep ≠ [] ∧ sep <+: c :: cs then
      [] :: splitOnSepAux sep fuel (List.drop sep.length (c :: cs))
    else
      match splitOnSepAux sep fuel cs with
      | [] => [[c]]
      | p :: ps => (c :: p) :: ps

/-- Modelled from the spec: split a string on a separator substring,
Python str.split semantics. -/
def splitOnSep (sep l : List Char) : List (List Char) :=
  splitOnSepAux sep l.length l

/-- A text is safe for a separator when no nonempty suffix of the text starts
a separator occurrence once the separator is appended after the text. This
subsumes the separator not occurring inside the text (take a suffix of length
at least the separator's) and rules out spurious occurrences spanning the
junction between the text and the following separator. -/
def separatorSafe (sep t : List Char) : Prop :=
  ∀ s ∈ t.tails, s ≠ [] → ¬ sep <+: s ++ sep

instance decSeparatorSafe (sep t : List Char) : Decidable (separatorSafe sep t) :=
  inferInstanceAs (Decidable (∀ s ∈ t.tails, s ≠ [] → ¬ sep <+: s ++ sep))

/-- Ghost instrumentation of the scan of processScenes: the start and end
indices (lines 88-89) assigned to each scene, in scene order; none for an
empty scene and for every scene from a fatal out-of-bounds start onwards.
The control flow and cursor arithmetic mirror processScenes exactly. -/
def sceneSpans (flag : Bool) (total : ℕ) : List (Scene ρ) → ℕ → List (Option (ℕ × ℕ))
  | [], _ => []
  | scene :: rest, cursor =>
    if scene.elevenlabs.length = 0 then
      none :: sceneSpans flag total rest cursor
    else if total ≤ cursor then
      none :: rest.map (fun _ => none)
    else
      some (cursor, cursor + scene.elevenlabs.length - 1)
        :: sceneSpans flag total rest (advanceCursor flag cursor scene.elevenlabs.length rest.isEmpty)

/-- Ghost instrumentation of the scan of processScenes: the cursor value at
the start of each executed loop iteration, and the final cursor after the
last executed iteration. The control flow mirrors processScenes exactly. -/
def cursorTrace (flag : Bool) (total : ℕ) : List (Scene ρ) → ℕ → List ℕ
  | [], cursor => [cursor]
  | scene :: rest, cursor =>
    if scene.elevenlabs.length = 0 then
      cursor :: cursorTrace flag total rest cursor
    else if total ≤ cursor then
      [cursor]
    else
      cursor :: cursorTrace flag total rest
        (advanceCursor flag cursor scene.elevenlabs.length rest.isEmpty)

/-! ## General lemmas about the embedded definitions -/

theorem formatDuration_ne_error (q : ℚ) : formatDuration q ≠ ("error") := by
  intro h
  have h1 : (formatDuration q).data.getLast? = some ('s') := by
    show ((_ ++ ("s")).data.getLast?) = _
    rw [String.data_append, List.getLast?_concat]
  rw [h] at h1
  exact absurd h1 (by decide)

theorem formatDuration_eval_080 : formatDuration (3 / 10 - 0 + 1 / 2) = ("0.80s") := by
  unfold formatDuration
  rw [show ⌊((3:ℚ) / 10 - 0 + 1 / 2) * 100 + 1 / 2⌋ = 80 by norm_num]
  decide

theorem formatDuration_eval_090 : formatDuration (7 / 10 - 3 / 10 + 1 / 2) = ("0.90s") := by
  unfold formatDuration
  rw [show ⌊((7:ℚ) / 10 - 3 / 10 + 1 / 2) * 100 + 1 / 2⌋ = 90 by norm_num]
  decide

/-! ## C3: missing alignment arrays are a whole-batch failure -/

/-- C3: when the alignment record lacks the character-start-times array or the
character-end-times array, the engine returns the original scene list with
every scene unmodified and reports the whole-batch failure (the error print of
line 70, modelled as the returned Bool). -/
theorem alignment_missing_whole_batch_failure {ρ : Type} (flag : Bool)
    (scenes : List (Scene ρ)) (a : AlignmentRecord)
    (h : a.character_start_times_seconds = none ∨ a.character_end_times_seconds = none) :
    calculate_durations_by_char_count flag scenes a = (scenes, true) := by
  unfold calculate_durations_by_char_count
  rcases h with h | h <;> simp [h]

/-- Witness for C3 at a concrete input: one scene, an alignment record with no
start-times array. -/
theorem alignment_missing_whole_batch_failure_witness :
    calculate_durations_by_char_count false [(⟨['a'], ("auto"), ()⟩ : Scene Unit)]
      ⟨none, some [0]⟩ = ([⟨['a'], ("auto"), ()⟩], true) :=
  alignment_missing_whole_batch_failure false _ _ (Or.inl rfl)

/-! ## C1: out-of-bounds start index -/

/-- C1 counterexample: three one-character scenes against a one-entry
alignment. Scene 0 is measured, scene 1 starts at cursor 1 which is out of
bounds, the loop breaks, and scene 2 keeps its prior duration value: it is
not marked with the error sentinel, contrary to the claim that every scene
after the failing one is marked. -/
theorem c1_counterexample :
    ((calculate_durations_by_char_count false
        [(⟨['a'], ("auto"), ()⟩ : Scene Unit), ⟨['b'], ("auto"), ()⟩, ⟨['c'], ("auto"), ()⟩]
        ⟨some [0], some [1 / 10]⟩).1.map Scene.duration).get? 2 = some ("auto") ∧
      ("auto") ≠ ("error") := by
  constructor
  · decide
  · decide

/-- C1 amended: when a non-empty scene is reached with the cursor at or past
the alignment length, that scene's duration is set to the error sentinel, no
timestamp lookups are performed for it, and the scan stops: every scene after
it is returned entirely unchanged (keeping whatever duration value it already
had), while the full scene sequence is still returned. -/
theorem start_oob_marks_scene_and_breaks {ρ : Type} (flag : Bool) (cs ce : List ℚ)
    (total : ℕ) (scene : Scene ρ) (rest : List (Scene ρ)) (cursor : ℕ)
    (hne : scene.elevenlabs.length ≠ 0) (hoob : total ≤ cursor) :
    processScenes flag cs ce total (scene :: rest) cursor =
      { scene with duration := ("error") } :: rest := by
  simp [processScenes, hne, hoob]

/-- Witness for the amended C1 at a concrete input. -/
theorem start_oob_marks_scene_and_breaks_witness :
    processScenes false [] [] 0
        [(⟨['a'], ("auto"), ()⟩ : Scene Unit), ⟨['b'], ("auto"), ()⟩] 0 =
      [⟨['a'], ("error"), ()⟩, ⟨['b'], ("auto"), ()⟩] :=
  start_oob_marks_scene_and_breaks false [] [] 0 _ _ 0 (by decide) (by decide)

/-! ## C2: empty scenes -/

/-- C2 counterexample: with the separator-retained flag true, an empty first
scene followed by a non-empty one, against a one-entry alignment. The claim
predicts the cursor advances by the separator length (9) before the second
scene, so the second scene would start at index 9; in the code the continue
statement skips the separator rule, the cursor stays 0, and the second scene
is assigned start index 0. -/
theorem c2_counterexample :
    cursorTrace true 1 [(⟨[], ("auto"), ()⟩ : Scene Unit), ⟨['a'], ("auto"), ()⟩] 0 = [0, 0, 1] ∧
      sceneSpans true 1 [(⟨[], ("auto"), ()⟩ : Scene Unit), ⟨['a'], ("auto"), ()⟩] 0 =
        [none, some (0, 0)] ∧
      (cursorTrace true 1 [(⟨[], ("auto"), ()⟩ : Scene Unit), ⟨['a'], ("auto"), ()⟩] 0).get? 1 ≠
        some (0 + SCENE_SEPARATOR.length) ∧
      SCENE_SEPARATOR.length = 9 := by
  refine ⟨by decide, by decide, by decide, by decide⟩

/-- C2 amended: an empty scene records the zero duration and the loop moves to
the next scene without advancing the cursor at all: neither for its text nor
for the separator, whatever the separator-retained flag and whether or not the
scene is last; the next scene is processed at the same cursor value. -/
theorem empty_scene_zero_duration_no_advance {ρ : Type} (flag : Bool) (cs ce : List ℚ)
    (total : ℕ) (scene : Scene ρ) (rest : List (Scene ρ)) (cursor : ℕ)
    (hempty : scene.elevenlabs = []) :
    processScenes flag cs ce total (scene :: rest) cursor =
      { scene with duration := ("0s") } :: processScenes flag cs ce total rest cursor := by
  simp [processScenes, hempty]

/-- Witness for the amended C2 at a concrete input with the flag true and a
non-last empty scene. -/
theorem empty_scene_zero_duration_no_advance_witness :
    processScenes true [0] [0] 1
        [(⟨[], ("auto"), ()⟩ : Scene Unit), ⟨['a'], ("auto"), ()⟩] 0 =
      { (⟨[], ("auto"), ()⟩ : Scene Unit) with duration := ("0s") } ::
        processScenes true [0] [0] 1 [⟨['a'], ("auto"), ()⟩] 0 :=
  empty_scene_zero_duration_no_advance true [0] [0] 1 _ _ 0 (by decide)

/-! ## C5: scenario A -/

/-- C5: two scenes Hi. and Bye. with the separator-retained flag as deployed
(false) and a seven-entry alignment at uniform 0.1 time units per character:
scene 1 is assigned the index span 0-2 and duration 0.80s, scene 2 the span
3-6 and duration 0.90s. -/
theorem scenario_a_durations :
    (calculate_durations_by_char_count EXPECT_CONTROL_ALIGNMENT_DATA
        [(⟨("Hi.").toList, ("auto"), ()⟩ : Scene Unit), ⟨("Bye.").toList, ("auto"), ()⟩]
        ⟨some [0, 1 / 10, 2 / 10, 3 / 10, 4 / 10, 5 / 10, 6 / 10],
         some [1 / 10, 2 / 10, 3 / 10, 4 / 10, 5 / 10, 6 / 10, 7 / 10]⟩).1.map Scene.duration =
      [("0.80s"), ("0.90s")] ∧
    sceneSpans EXPECT_CONTROL_ALIGNMENT_DATA 7
        [(⟨("Hi.").toList, ("auto"), ()⟩ : Scene Unit), ⟨("Bye.").toList, ("auto"), ()⟩] 0 =
      [some (0, 2), some (3, 6)] := by
  constructor
  · have h :
        (calculate_durations_by_char_count EXPECT_CONTROL_ALIGNMENT_DATA
            [(⟨("Hi.").toList, ("auto"), ()⟩ : Scene Unit), ⟨("Bye.").toList, ("auto"), ()⟩]
            ⟨some [0, 1 / 10, 2 / 10, 3 / 10, 4 / 10, 5 / 10, 6 / 10],
             some [1 / 10, 2 / 10, 3 / 10, 4 / 10, 5 / 10, 6 / 10, 7 / 10]⟩).1.map Scene.duration =
          [formatDuration (3 / 10 - 0 + 1 / 2), formatDuration (7 / 10 - 3 / 10 + 1 / 2)] := rfl
    rw [h, formatDuration_eval_080, formatDuration_eval_090]
  · decide

/-! ## C9: the engine writes only the duration field -/

theorem writeScene_elevenlabs {ρ : Type} (scene : Scene ρ) (o : Option ℚ) :
    (writeScene scene o).elevenlabs = scene.elevenlabs := by
  cases o <;> rfl

theorem writeScene_rest {ρ : Type} (scene : Scene ρ) (o : Option ℚ) :
    (writeScene scene o).rest = scene.rest := by
  cases o <;> rfl

theorem processScenes_length {ρ : Type} (flag : Bool) (cs ce : List ℚ) (total : ℕ) :
    ∀ (scenes : List (Scene ρ)) (cursor : ℕ),
      (processScenes flag cs ce total scenes cursor).length = scenes.length := by
  intro scenes
  induction scenes with
  | nil => intro c; rfl
  | cons scene rest ih =>
    intro c
    by_cases h0 : scene.elevenlabs.length = 0
    · simp [processScenes, h0, ih]
    · by_cases hoob : total ≤ c
      · simp [processScenes, h0, hoob]
      · simp [processScenes, h0, hoob, ih]

theorem processScenes_frame {ρ : Type} (flag : Bool) (cs ce : List ℚ) (total : ℕ) :
    ∀ (scenes : List (Scene ρ)) (cursor i : ℕ) (scene' : Scene ρ),
      (processScenes flag cs ce total scenes cursor).get? i = some scene' →
      ∃ scene, scenes.get? i = some scene ∧ scene'.elevenlabs = scene.elevenlabs ∧
        scene'.rest = scene.rest := by
  intro scenes
  induction scenes with
  | nil => intro c i s' h; simp [processScenes] at h
  | cons scene rest ih =>
    intro c i s' h
    by_cases h0 : scene.elevenlabs.length = 0
    · simp only [processScenes, h0, if_true, eq_self_iff_true, if_pos] at h
      cases i with
      | zero =>
        simp only [List.get?_cons_zero, Option.some_inj] at h
        exact ⟨scene, rfl, by rw [← h], by rw [← h]⟩
      | succ i =>
        simp only [List.get?_cons_succ] at h
        obtain ⟨sc, h1, h2, h3⟩ := ih c i s' h
        exact ⟨sc, by simpa using h1, h2, h3⟩
    · by_cases hoob : total ≤ c
      · simp only [processScenes, h0, hoob, if_false, if_true, eq_self_iff_true, if_neg, if_pos,
          not_false_iff] at h
        cases i with
        | zero =>
          simp only [List.get?_cons_zero, Option.some_inj] at h
          exact ⟨scene, rfl, by rw [← h], by rw [← h]⟩
        | succ i =>
          simp only [List.get?_cons_succ] at h
          exact ⟨s', by simpa using h, rfl, rfl⟩
      · simp only [processScenes, h0, hoob, if_false, if_neg, not_false_iff] at h
        cases i with
        | zero =>
          simp only [List.get?_cons_zero, Option.some_inj] at h
          exact ⟨scene, rfl, by rw [← h, writeScene_elevenlabs], by rw [← h, writeScene_rest]⟩
        | succ i =>
          simp only [List.get?_cons_succ] at h
          obtain ⟨sc, h1, h2, h3⟩ := ih _ i s' h
          exact ⟨sc, by simpa using h1, h2, h3⟩

/-- C9: the duration-calculation engine modifies at most the duration field:
the returned list has the same length, and the scene at every position keeps
its narration text and all its other fields. -/
theorem engine_touches_only_duration {ρ : Type} (flag : Bool) (scenes : List (Scene ρ))
    (a : AlignmentRecord) :
    ((calculate_durations_by_char_count flag scenes a).1.length = scenes.length) ∧
    (∀ (i : ℕ) (scene' : Scene ρ),
      (calculate_durations_by_char_count flag scenes a).1.get? i = some scene' →
      ∃ scene, scenes.get? i = some scene ∧ scene'.elevenlabs = scene.elevenlabs ∧
        scene'.rest = scene.rest) := by
  unfold calculate_durations_by_char_count
  by_cases h : (a.character_start_times_seconds.getD [] = [] ∨
      a.character_end_times_seconds.getD [] = [])
  · simp only [if_pos h]
    exact ⟨by simp, fun i s' hi => ⟨s', hi, rfl, rfl⟩⟩
  · simp only [if_neg h]
    exact ⟨processScenes_length _ _ _ _ scenes 0,
      fun i s' hi => processScenes_frame _ _ _ _ scenes 0 i s' hi⟩

/-- Witness for C9 at a concrete input: a single empty scene receives the zero
duration while its text and other fields are untouched. -/
theorem engine_touches_only_duration_witness :
    ∃ scene, ([(⟨[], ("x"), ()⟩ : Scene Unit)].get? 0 = some scene) ∧
      (⟨([] : List Char), ("0s"), ()⟩ : Scene Unit).elevenlabs = scene.elevenlabs ∧
      (⟨([] : List Char), ("0s"), ()⟩ : Scene Unit).rest = scene.rest :=
  (engine_touches_only_duration false [⟨[], ("x"), ()⟩] ⟨some [0], some [0]⟩).2 0
    ⟨[], ("0s"), ()⟩ (by decide)

/-! ## C7: cursor monotonicity and span ordering -/

theorem le_advanceCursor (flag : Bool) (cursor textLen : ℕ) (isLast : Bool) :
    cursor + textLen ≤ advanceCursor flag cursor textLen isLast := by
  unfold advanceCursor
  split <;> omega

theorem sceneSpans_start_ge {ρ : Type} (flag : Bool) (total : ℕ) :
    ∀ (scenes : List (Scene ρ)) (cursor i s e : ℕ),
      (sceneSpans flag total scenes cursor).get? i = some (some (s, e)) → cursor ≤ s := by
  intro scenes
  induction scenes with
  | nil => intro c i s e h; simp [sceneSpans] at h
  | cons scene rest ih =>
    intro c i s e h
    by_cases h0 : scene.elevenlabs.length = 0
    · simp only [sceneSpans, h0, if_true, eq_self_iff_true, if_pos] at h
      cases i with
      | zero => simp at h
      | succ i =>
        simp only [List.get?_cons_succ] at h
        exact ih c i s e h
    · by_cases hoob : total ≤ c
      · simp only [sceneSpans, h0, hoob, if_false, if_true, eq_self_iff_true, if_neg, if_pos,
          not_false_iff] at h
        cases i with
        | zero => simp at h
        | succ i =>
          simp only [List.get?_cons_succ, List.get?_map] at h
          cases hr : rest.get? i with
          | none => rw [hr] at h; simp at h
          | some sc => rw [hr] at h; simp at h
      · simp only [sceneSpans, h0, hoob, if_false, if_neg, not_false_iff] at h
        cases i with
        | zero =>
          simp only [List.get?_cons_zero, Option.some_inj, Prod.mk.injEq] at h
          omega
        | succ i =>
          simp only [List.get?_cons_succ] at h
          have h1 := ih _ i s e h
          have h2 := le_advanceCursor flag c scene.elevenlabs.length rest.isEmpty
          omega

theorem sceneSpans_pair {ρ : Type} (flag : Bool) (total : ℕ) :
    ∀ (scenes : List (Scene ρ)) (cursor i j s₁ e₁ s₂ e₂ : ℕ), i < j →
      (sceneSpans flag total scenes cursor).get? i = some (some (s₁, e₁)) →
      (sceneSpans flag total scenes cursor).get? j = some (some (s₂, e₂)) →
      e₁ < s₂ := by
  intro scenes
  induction scenes with
  | nil => intro c i j s₁ e₁ s₂ e₂ _ h₁ _; simp [sceneSpans] at h₁
  | cons scene rest ih =>
    intro c i j s₁ e₁ s₂ e₂ hij h₁ h₂
    by_cases h0 : scene.elevenlabs.length = 0
    · simp only [sceneSpans, h0, if_true, eq_self_iff_true, if_pos] at h₁ h₂
      cases i with
      | zero => simp at h₁
      | succ i =>
        cases j with
        | zero => omega
        | succ j =>
          simp only [List.get?_cons_succ] at h₁ h₂
          exact ih c i j s₁ e₁ s₂ e₂ (by omega) h₁ h₂
    · by_cases hoob : total ≤ c
      · simp only [sceneSpans, h0, hoob, if_false, if_true, eq_self_iff_true, if_neg, if_pos,
          not_false_iff] at h₁ h₂
        cases j with
        | zero => omega
        | succ j =>
          simp only [List.get?_cons_succ, List.get?_map] at h₂
          cases hr : rest.get? j with
          | none => rw [hr] at h₂; simp at h₂
          | some sc => rw [hr] at h₂; simp at h₂
      · simp only [sceneSpans, h0, hoob, if_false, if_neg, not_false_iff] at h₁ h₂
        cases i with
        | zero =>
          simp only [List.get?_cons_zero, Option.some_inj, Prod.mk.injEq] at h₁
          cases j with
          | zero => omega
          | succ j =>
            simp only [List.get?_cons_succ] at h₂
            have hge := sceneSpans_start_ge flag total rest
              (advanceCursor flag c scene.elevenlabs.length rest.isEmpty) j s₂ e₂ h₂
            have hadv := le_advanceCursor flag c scene.elevenlabs.length rest.isEmpty
            omega
        | succ i =>
          cases j with
          | zero => omega
          | succ j =>
            simp only [List.get?_cons_succ] at h₁ h₂
            exact ih _ i j s₁ e₁ s₂ e₂ (by omega) h₁ h₂

theorem cursorTrace_head {ρ : Type} (flag : Bool) (total : ℕ) (scenes : List (Scene ρ))
    (cursor : ℕ) : (cursorTrace flag total scenes cursor).head? = some cursor := by
  cases scenes with
  | nil => rfl
  | cons scene rest =>
    by_cases h0 : scene.elevenlabs.length = 0
    · simp [cursorTrace, h0]
    · by_cases hoob : total ≤ cursor
      · simp [cursorTrace, h0, hoob]
      · simp [cursorTrace, h0, hoob]

theorem cursorTrace_chain {ρ : Type} (flag : Bool) (total : ℕ) :
    ∀ (scenes : List (Scene ρ)) (cursor : ℕ),
      List.Chain' (· ≤ ·) (cursorTrace flag total scenes cursor) := by
  intro scenes
  induction scenes with
  | nil => intro c; simp [cursorTrace]
  | cons scene rest ih =>
    intro c
    by_cases h0 : scene.elevenlabs.length = 0
    · simp only [cursorTrace, h0, if_true, eq_self_iff_true, if_pos]
      refine List.chain'_cons'.mpr ⟨?_, ih c⟩
      intro y hy
      rw [cursorTrace_head flag total rest c] at hy
      cases hy
      exact le_refl c
    · by_cases hoob : total ≤ c
      · simp [cursorTrace, h0, hoob]
      · simp only [cursorTrace, h0, hoob, if_false, if_neg, not_false_iff]
        refine List.chain'_cons'.mpr ⟨?_, ih _⟩
        intro y hy
        rw [cursorTrace_head flag total rest _] at hy
        cases hy
        calc c ≤ c + scene.elevenlabs.length := by omega
        _ ≤ _ := le_advanceCursor flag c scene.elevenlabs.length rest.isEmpty

/-- C7: the cursor never moves backward across the scan (the trace of cursor
values at each loop iteration is non-decreasing), and for every two scenes
i before j that are both assigned index spans, the start index of scene j is
at least the end index of scene i: spans never overlap and never appear out
of order. -/
theorem cursor_monotone_spans_ordered {ρ : Type} (flag : Bool) (total : ℕ)
    (scenes : List (Scene ρ)) :
    List.Chain' (· ≤ ·) (cursorTrace flag total scenes 0) ∧
    (∀ i j s₁ e₁ s₂ e₂ : ℕ, i < j →
      (sceneSpans flag total scenes 0).get? i = some (some (s₁, e₁)) →
      (sceneSpans flag total scenes 0).get? j = some (some (s₂, e₂)) →
      e₁ ≤ s₂) :=
  ⟨cursorTrace_chain flag total scenes 0,
    fun i j s₁ e₁ s₂ e₂ hij h₁ h₂ =>
      le_of_lt (sceneSpans_pair flag total scenes 0 i j s₁ e₁ s₂ e₂ hij h₁ h₂)⟩

/-- Witness for C7 at a concrete input: the two scenes of scenario A occupy
spans (0, 2) and (3, 6), and 2 is at most 3. -/
theorem cursor_monotone_spans_ordered_witness : (0 : ℕ) < 1 ∧ (2 : ℕ) ≤ 3 :=
  ⟨by decide,
    (cursor_monotone_spans_ordered false 7
      [(⟨("Hi.").toList, ("auto"), ()⟩ : Scene Unit), ⟨("Bye.").toList, ("auto"), ()⟩]).2
      0 1 0 2 3 6 (by decide) (by decide) (by decide)⟩

/-! ## C6 and C10: in-bounds non-empty scenes and the clamped lookup -/

theorem sceneSpans_lookup {ρ : Type} (flag : Bool) (cs ce : List ℚ) (total : ℕ) :
    ∀ (scenes : List (Scene ρ)) (cursor i s e : ℕ),
      (sceneSpans flag total scenes cursor).get? i = some (some (s, e)) →
      ∃ scene, scenes.get? i = some scene ∧ scene.elevenlabs.length ≠ 0 ∧
        e = s + scene.elevenlabs.length - 1 ∧ ¬ total ≤ s ∧
        (processScenes flag cs ce total scenes cursor).get? i =
          some (writeScene scene (measuredDuration cs ce total s scene.elevenlabs.length)) := by
  intro scenes
  induction scenes with
  | nil => intro c i s e h; simp [sceneSpans] at h
  | cons scene rest ih =>
    intro c i s e h
    by_cases h0 : scene.elevenlabs.length = 0
    · simp only [sceneSpans, h0, if_true, eq_self_iff_true, if_pos] at h
      cases i with
      | zero => simp at h
      | succ i =>
        simp only [List.get?_cons_succ] at h
        obtain ⟨sc, h1, h2, h3, h4, h5⟩ := ih c i s e h
        refine ⟨sc, by simpa using h1, h2, h3, h4, ?_⟩
        simp only [processScenes, h0, if_true, eq_self_iff_true, if_pos, List.get?_cons_succ]
        exact h5
    · by_cases hoob : total ≤ c
      · simp only [sceneSpans, h0, hoob, if_false, if_true, eq_self_iff_true, if_neg, if_pos,
          not_false_iff] at h
        cases i with
        | zero => simp at h
        | succ i =>
          simp only [List.get?_cons_succ, List.get?_map] at h
          cases hr : rest.get? i with
          | none => rw [hr] at h; simp at h
          | some sc => rw [hr] at h; simp at h
      · simp only [sceneSpans, h0, hoob, if_false, if_neg, not_false_iff] at h
        cases i with
        | zero =>
          simp only [List.get?_cons_zero, Option.some_inj, Prod.mk.injEq] at h
          obtain ⟨hs, he⟩ := h
          subst hs
          refine ⟨scene, rfl, h0, he.symm, hoob, ?_⟩
          simp only [processScenes, h0, hoob, if_false, if_neg, not_false_iff,
            List.get?_cons_zero]
        | succ i =>
          simp only [List.get?_cons_succ] at h
          obtain ⟨sc, h1, h2, h3, h4, h5⟩ := ih _ i s e h
          refine ⟨sc, by simpa using h1, h2, h3, h4, ?_⟩
          simp only [processScenes, h0, hoob, if_false, if_neg, not_false_iff,
            List.get?_cons_succ]
          exact h5

/-- C10: when the two time arrays have equal length (the parallel-array
invariant of the data model), every scene assigned an index span (non-empty,
reached, start index in bounds) receives a formatted duration string, never
the error sentinel: with the start index checked against the array length and
the end index clamped before the lookups, the exception branch cannot be
taken. -/
theorem lookup_exception_unreachable {ρ : Type} (flag : Bool) (cs ce : List ℚ)
    (hlen : ce.length = cs.length) (scenes : List (Scene ρ)) (i s e : ℕ)
    (hspan : (sceneSpans flag cs.length scenes 0).get? i = some (some (s, e))) :
    ∃ scene' d, (processScenes flag cs ce cs.length scenes 0).get? i = some scene' ∧
      scene'.duration = formatDuration (d + 1 / 2) ∧ scene'.duration ≠ ("error") := by
  obtain ⟨scene, -, hne, -, hs, hp⟩ := sceneSpans_lookup flag cs ce cs.length scenes 0 i s e hspan
  have hslt : s < cs.length := by omega
  have hefflt : min (s + scene.elevenlabs.length - 1) (cs.length - 1) < ce.length := by
    rw [hlen]; omega
  have hS : cs.get? s = some (cs.get ⟨s, hslt⟩) := List.get?_eq_get hslt
  have hE : ce.get? (min (s + scene.elevenlabs.length - 1) (cs.length - 1)) =
      some (ce.get ⟨min (s + scene.elevenlabs.length - 1) (cs.length - 1), hefflt⟩) :=
    List.get?_eq_get hefflt
  have hm : measuredDuration cs ce cs.length s scene.elevenlabs.length =
      some (ce.get ⟨min (s + scene.elevenlabs.length - 1) (cs.length - 1), hefflt⟩ -
        cs.get ⟨s, hslt⟩) := by
    unfold measuredDuration
    rw [hS, hE]
  rw [hm] at hp
  exact ⟨_, _, hp, rfl, formatDuration_ne_error _⟩

/-- Witness for C10 at a concrete input: one one-character scene against a
two-entry alignment. -/
theorem lookup_exception_unreachable_witness :
    ∃ (scene' : Scene Unit) (d : ℚ),
      (processScenes false [0, 1 / 10] [1 / 10, 2 / 10] 2 [⟨['a'], ("auto"), ()⟩] 0).get? 0 =
        some scene' ∧
      scene'.duration = formatDuration (d + 1 / 2) ∧ scene'.duration ≠ ("error") :=
  lookup_exception_unreachable false [0, 1 / 10] [1 / 10, 2 / 10] rfl
    [⟨['a'], ("auto"), ()⟩] 0 0 0 (by decide)

/-- C6: a non-empty scene whose start index is in bounds but whose end index
overruns the last valid alignment index (the time arrays having equal length,
the parallel-array invariant of the data model) has its end index clamped to
the last valid index and receives the real formatted duration computed from
that clamped index, never the error sentinel. -/
theorem end_overrun_clamped_not_error {ρ : Type} (flag : Bool) (cs ce : List ℚ)
    (hlen : ce.length = cs.length) (scenes : List (Scene ρ)) (i s e : ℕ)
    (hspan : (sceneSpans flag cs.length scenes 0).get? i = some (some (s, e)))
    (hover : cs.length - 1 < e) :
    ∃ scene' tS tE, (processScenes flag cs ce cs.length scenes 0).get? i = some scene' ∧
      cs.get? s = some tS ∧ ce.get? (cs.length - 1) = some tE ∧
      scene'.duration = formatDuration (tE - tS + 1 / 2) ∧ scene'.duration ≠ ("error") := by
  obtain ⟨scene, -, hne, he, hs, hp⟩ :=
    sceneSpans_lookup flag cs ce cs.length scenes 0 i s e hspan
  have hslt : s < cs.length := by omega
  have hefflt : cs.length - 1 < ce.length := by rw [hlen]; omega
  have hS : cs.get? s = some (cs.get ⟨s, hslt⟩) := List.get?_eq_get hslt
  have hE : ce.get? (cs.length - 1) = some (ce.get ⟨cs.length - 1, hefflt⟩) :=
    List.get?_eq_get hefflt
  have hm : measuredDuration cs ce cs.length s scene.elevenlabs.length =
      some (ce.get ⟨cs.length - 1, hefflt⟩ - cs.get ⟨s, hslt⟩) := by
    unfold measuredDuration
    rw [min_eq_right (by omega), hS, hE]
  rw [hm] at hp
  exact ⟨_, _, _, hp, hS, hE, rfl, formatDuration_ne_error _⟩

/-- Witness for C6 at a concrete input: scenario B, the truncated five-entry
alignment where the second scene's end index 6 clamps to 4. -/
theorem end_overrun_clamped_not_error_witness :
    ∃ (scene' : Scene Unit) (tS tE : ℚ),
      (processScenes false [0, 1 / 10, 2 / 10, 3 / 10, 4 / 10]
          [1 / 10, 2 / 10, 3 / 10, 4 / 10, 5 / 10] 5
          [⟨("Hi.").toList, ("auto"), ()⟩, ⟨("Bye.").toList, ("auto"), ()⟩] 0).get? 1 =
        some scene' ∧
      ([0, 1 / 10, 2 / 10, 3 / 10, 4 / 10] : List ℚ).get? 3 = some tS ∧
      ([1 / 10, 2 / 10, 3 / 10, 4 / 10, 5 / 10] : List ℚ).get? 4 = some tE ∧
      scene'.duration = formatDuration (tE - tS + 1 / 2) ∧ scene'.duration ≠ ("error") :=
  end_overrun_clamped_not_error false [0, 1 / 10, 2 / 10, 3 / 10, 4 / 10]
    [1 / 10, 2 / 10, 3 / 10, 4 / 10, 5 / 10] rfl
    [⟨("Hi.").toList, ("auto"), ()⟩, ⟨("Bye.").toList, ("auto"), ()⟩] 1 3 6
    (by decide) (by decide)

/-! ## C8: non-negative pre-padding measurement -/

/-- C8: under the alignment invariant (start times pointwise at most end
times as parallel arrays, and both arrays non-decreasing), the pre-padding
measurement of every non-empty scene that obtains one is non-negative. -/
theorem measured_duration_nonneg (cs ce : List ℚ) (cursor textLen : ℕ) (d : ℚ)
    (hpt : List.Forall₂ (· ≤ ·) cs ce)
    (hcs : List.Chain' (· ≤ ·) cs) (_hce : List.Chain' (· ≤ ·) ce)
    (hne : textLen ≠ 0)
    (hd : measuredDuration cs ce cs.length cursor textLen = some d) : 0 ≤ d := by
  unfold measuredDuration at hd
  cases hS : cs.get? cursor with
  | none => rw [hS] at hd; simp at hd
  | some tS =>
    cases hE : ce.get? (min (cursor + textLen - 1) (cs.length - 1)) with
    | none => rw [hS, hE] at hd; simp at hd
    | some tE =>
      rw [hS, hE] at hd
      simp only [Option.some_inj] at hd
      subst hd
      obtain ⟨hlt, hgetS⟩ := List.get?_eq_some.mp hS
      obtain ⟨helt, hgetE⟩ := List.get?_eq_some.mp hE
      have hlen := List.Forall₂.length_eq hpt
      have heff : min (cursor + textLen - 1) (cs.length - 1) < cs.length := by omega
      have hcle : cursor ≤ min (cursor + textLen - 1) (cs.length - 1) := by omega
      have h1 : tS ≤ cs.get ⟨min (cursor + textLen - 1) (cs.length - 1), heff⟩ := by
        rw [← hgetS]
        rcases Nat.lt_or_ge cursor (min (cursor + textLen - 1) (cs.length - 1)) with hlt2 | hge
        · exact (List.pairwise_iff_get.mp
            ((List.chain'_iff_pairwise).mp hcs)) ⟨cursor, hlt⟩ ⟨_, heff⟩ hlt2
        · have heq : cursor = min (cursor + textLen - 1) (cs.length - 1) := by omega
          exact le_of_eq (by congr 1; exact Fin.ext heq)
      have h2 : cs.get ⟨min (cursor + textLen - 1) (cs.length - 1), heff⟩ ≤ tE := by
        rw [← hgetE]
        exact (List.forall₂_iff_get.mp hpt).2 _ heff helt
      have := le_trans h1 h2
      linarith

/-- Witness for C8 at a concrete input with equal start and end arrays. -/
theorem measured_duration_nonneg_witness : (0 : ℚ) ≤ 0 - 0 :=
  measured_duration_nonneg [0, 0] [0, 0] 0 2 (0 - 0) (by simp) (by simp) (by simp)
    (by decide) rfl

/-! ## C4: concatenation length law and separator round trip -/

theorem splitOnSepAux_fuel (sep : List Char) :
    ∀ (f₁ f₂ : ℕ) (l : List Char), l.length ≤ f₁ → l.length ≤ f₂ →
      splitOnSepAux sep f₁ l = splitOnSepAux sep f₂ l := by
  intro f₁
  induction f₁ with
  | zero =>
    intro f₂ l h1 _
    have hl : l = [] := List.length_eq_zero.mp (Nat.le_zero.mp h1)
    subst hl
    cases f₂ <;> rfl
  | succ f₁' ih =>
    intro f₂ l h1 h2
    cases l with
    | nil => cases f₂ <;> rfl
    | cons c cs =>
      cases f₂ with
      | zero => simp at h2
      | succ f₂' =>
        simp only [splitOnSepAux]
        have h1' : cs.length + 1 ≤ f₁' + 1 := by simpa using h1
        have h2' : cs.length + 1 ≤ f₂' + 1 := by simpa using h2
        by_cases hp : sep ≠ [] ∧ sep <+: c :: cs
        · rw [if_pos hp, if_pos hp]
          have hslen : sep.length ≠ 0 := fun h => hp.1 (List.length_eq_zero.mp h)
          have hd1 : (List.drop sep.length (c :: cs)).length ≤ f₁' := by
            rw [List.length_drop, List.length_cons]
            omega
          have hd2 : (List.drop sep.length (c :: cs)).length ≤ f₂' := by
            rw [List.length_drop, List.length_cons]
            omega
          rw [ih f₂' _ hd1 hd2]
        · rw [if_neg hp, if_neg hp]
          rw [ih f₂' cs (by omega) (by omega)]

theorem splitOnSepAux_append (sep : List Char) (hsep : sep ≠ []) :
    ∀ (t : List Char) (f : ℕ) (r : List Char), separatorSafe sep t →
      t.length + sep.length + r.length ≤ f →
      splitOnSepAux sep f (t ++ sep ++ r) = t :: splitOnSepAux sep r.length r := by
  intro t
  induction t with
  | nil =>
    intro f r _ hf
    cases hsepc : sep with
    | nil => exact absurd hsepc hsep
    | cons a as =>
      subst hsepc
      cases f with
      | zero => simp at hf
      | succ f' =>
        simp only [List.nil_append, List.cons_append]
        simp only [splitOnSepAux]
        have hpre : (a :: as) <+: a :: (as ++ r) := by
          rw [← List.cons_append]
          exact List.prefix_append _ _
        rw [if_pos ⟨hsep, hpre⟩]
        have hdrop : List.drop (a :: as).length (a :: (as ++ r)) = r := by
          rw [← List.cons_append, List.drop_left]
        rw [hdrop]
        have hrf : r.length ≤ f' := by
          simp only [List.length_nil, List.length_cons] at hf
          omega
        rw [splitOnSepAux_fuel (a :: as) f' r.length r hrf (le_refl _)]
  | cons c t' ih =>
    intro f r hsafe hf
    cases f with
    | zero => simp at hf
    | succ f' =>
      simp only [List.cons_append]
      simp only [splitOnSepAux]
      have hneg : ¬ (sep ≠ [] ∧ sep <+: c :: (t' ++ sep ++ r)) := by
        rintro ⟨-, hpre⟩
        have hlen : sep.length ≤ ((c :: t') ++ sep).length := by
          simp only [List.length_append, List.length_cons]
          omega
        rw [show c :: (t' ++ sep ++ r) = ((c :: t') ++ sep) ++ r by simp] at hpre
        have hpre2 := (List.isPrefix_append_of_length hlen).mp hpre
        exact hsafe (c :: t')
          (by rw [List.tails_cons]; exact List.mem_cons_self _ _) (by simp) hpre2
      rw [if_neg hneg]
      have hsafe' : separatorSafe sep t' := fun s hs hne =>
        hsafe s (by rw [List.tails_cons]; exact List.mem_cons_of_mem _ hs) hne
      have hf' : t'.length + sep.length + r.length ≤ f' := by
        simp only [List.length_cons] at hf
        omega
      rw [ih f' r hsafe' hf']

theorem splitOnSepAux_safe (sep : List Char) :
    ∀ (t : List Char) (f : ℕ), separatorSafe sep t → t.length ≤ f →
      splitOnSepAux sep f t = [t] := by
  intro t
  induction t with
  | nil => intro f _ _; cases f <;> rfl
  | cons c t' ih =>
    intro f hsafe hf
    cases f with
    | zero => simp at hf
    | succ f' =>
      simp only [splitOnSepAux]
      have hneg : ¬ (sep ≠ [] ∧ sep <+: c :: t') := by
        rintro ⟨-, hpre⟩
        exact hsafe (c :: t')
          (by rw [List.tails_cons]; exact List.mem_cons_self _ _) (by simp)
          (hpre.trans (List.prefix_append _ _))
      rw [if_neg hneg]
      have hsafe' : separatorSafe sep t' := fun s hs hne =>
        hsafe s (by rw [List.tails_cons]; exact List.mem_cons_of_mem _ hs) hne
      rw [ih f' hsafe' (by simp only [List.length_cons] at hf; omega)]

theorem sepJoin_length (sep : List Char) :
    ∀ (texts : List (List Char)), texts ≠ [] →
      (sepJoin sep texts).length = (texts.map List.length).sum +
        sep.length * (texts.length - 1) := by
  intro texts
  induction texts with
  | nil => intro h; exact absurd rfl h
  | cons t ts ih =>
    intro _
    cases ts with
    | nil => simp [sepJoin]
    | cons t₂ ts' =>
      have ihh := ih (by simp)
      simp only [sepJoin, List.length_append, List.map_cons, List.sum_cons, List.length_cons,
        Nat.add_sub_cancel] at ihh ⊢
      rw [ihh, Nat.mul_succ]
      ring

theorem splitOnSep_sepJoin (sep : List Char) (hsep : sep ≠ []) :
    ∀ (texts : List (List Char)), texts ≠ [] → (∀ t ∈ texts, separatorSafe sep t) →
      splitOnSep sep (sepJoin sep texts) = texts := by
  intro texts
  induction texts with
  | nil => intro h _; exact absurd rfl h
  | cons t ts ih =>
    intro _ hsafe
    cases ts with
    | nil =>
      exact splitOnSepAux_safe sep t t.length (hsafe t (by simp)) (le_refl _)
    | cons t₂ ts' =>
      show splitOnSep sep (t ++ sep ++ sepJoin sep (t₂ :: ts')) = _
      unfold splitOnSep
      rw [splitOnSepAux_append sep hsep t _ _ (hsafe t (by simp))
        (by simp only [List.length_append]; omega)]
      show t :: splitOnSep sep (sepJoin sep (t₂ :: ts')) = _
      rw [ih (by simp) (fun s hs => hsafe s (List.mem_cons_of_mem _ hs))]

/-- C4 counterexample: the two scene texts a-space-bracket-pause-bracket and b
contain no occurrence of the separator substring, yet splitting their joined
concatenation on the separator does not recover them: the first text ends with
the separator minus its trailing space, so a spurious separator occurrence
forms at the junction and the leftmost-first split breaks too early. -/
theorem concatenation_roundtrip_counterexample :
    (¬ SCENE_SEPARATOR <:+: ("a [pause]").toList) ∧
    (¬ SCENE_SEPARATOR <:+: ("b").toList) ∧
    splitOnSep SCENE_SEPARATOR (elevenlabs_voiceover
        [(⟨("a [pause]").toList, ("auto"), ()⟩ : Scene Unit), ⟨("b").toList, ("auto"), ()⟩]) ≠
      [("a [pause]").toList, ("b").toList] := by
  refine ⟨by decide, by decide, by decide⟩

/-- C4 amended: for a non-empty scene list the concatenation sent to synthesis
is the texts joined by the fixed separator with no leading or trailing
separator, its length is the sum of the text lengths plus the separator length
times one less than the number of scenes, and splitting it on the separator
recovers the texts exactly, provided every scene text is separator-safe: the
text does not contain the separator substring and no nonempty suffix of the
text starts a separator occurrence at the junction with the appended separator
(the counterexample above shows the containment proviso alone is not enough). -/
theorem concatenation_invariant {ρ : Type} (scenes : List (Scene ρ)) (hne : scenes ≠ [])
    (hsafe : ∀ t ∈ scenes.map Scene.elevenlabs, separatorSafe SCENE_SEPARATOR t) :
    (elevenlabs_voiceover scenes).length =
      ((scenes.map Scene.elevenlabs).map List.length).sum +
        SCENE_SEPARATOR.length * (scenes.length - 1) ∧
    splitOnSep SCENE_SEPARATOR (elevenlabs_voiceover scenes) = scenes.map Scene.elevenlabs := by
  constructor
  · have h := sepJoin_length SCENE_SEPARATOR (scenes.map Scene.elevenlabs)
      (by simpa using hne)
    simpa [elevenlabs_voiceover] using h
  · exact splitOnSep_sepJoin SCENE_SEPARATOR (by decide) _ (by simpa using hne) hsafe

/-- Witness for the amended C4 at a concrete input: the two scenario A texts. -/
theorem concatenation_invariant_witness :
    (elevenlabs_voiceover
        [(⟨("Hi.").toList, ("auto"), ()⟩ : Scene Unit), ⟨("Bye.").toList, ("auto"), ()⟩]).length =
      (([(⟨("Hi.").toList, ("auto"), ()⟩ : Scene Unit),
          ⟨("Bye.").toList, ("auto"), ()⟩].map Scene.elevenlabs).map List.length).sum +
        SCENE_SEPARATOR.length *
          (([(⟨("Hi.").toList, ("auto"), ()⟩ : Scene Unit),
            ⟨("Bye.").toList, ("auto"), ()⟩].length) - 1) ∧
    splitOnSep SCENE_SEPARATOR (elevenlabs_voiceover
        [(⟨("Hi.").toList, ("auto"), ()⟩ : Scene Unit), ⟨("Bye.").toList, ("auto"), ()⟩]) =
      [(⟨("Hi.").toList, ("auto"), ()⟩ : Scene Unit),
        ⟨("Bye.").toList, ("auto"), ()⟩].map Scene.elevenlabs :=
  concatenation_invariant
    [(⟨("Hi.").toList, ("auto"), ()⟩ : Scene Unit), ⟨("Bye.").toList, ("auto"), ()⟩]
    (by decide) (by decide)
